import Mathlib

/-!
Verification development for the btc_news service (FastAPI + MySQL).

Shallow embedding conventions:
- Python floats are modelled as exact rationals (ℚ); all score logic in the
  source is plain comparison/clamping, so no floating-point rounding is involved
  in the properties below.
- `datetime` values are modelled as integers (seconds); `timedelta(hours=h)`
  becomes `h * 3600`.
- The MySQL table of `NewsItem` rows is a `List NewsItem`; the auto-increment
  primary key is passed in explicitly (`nid`).
- SQL comparison against `NULL` follows SQL three-valued logic: a `WHERE`
  clause whose comparison evaluates to UNKNOWN excludes the row (`cmpGeNull`).
- The process-wide `settings` object (config.py) is passed as an explicit
  `Settings` argument, and the external DeepSeek HTTP call is a function
  argument returning `Except` (error = transport/JSON-parse/missing-field
  failure, which `DeepSeekClient.analyze_news` re-raises).
-/

/-- A JSON value, as far as the dynamic checks in deepseek_client.py can
distinguish one (`isinstance(result["mentioned_coins"], list)`). -/
inductive JValue where
  | jnull : JValue
  | jbool : Bool → JValue
  | jnum : ℚ → JValue
  | jstr : String → JValue
  | jlist : List JValue → JValue

/-- Application settings (config.py, class Settings): only the fields the
modelled code paths read. -/
structure Settings where
  news_retention_hours : ℕ
  enable_ai_analysis : Bool
  major_news_threshold_low : ℚ
  major_news_threshold_high : ℚ

/-- The field defaults of config.py: retention 24h, AI analysis on, major-news
thresholds 0.2 / 0.8 (written as exact rationals). -/
def defaultSettings : Settings :=
  { news_retention_hours := 24
  , enable_ai_analysis := true
  , major_news_threshold_low := mkRat 1 5
  , major_news_threshold_high := mkRat 4 5 }

/-- models.py, class NewsItem (the sole persisted entity).  `received_at` is an
integer timestamp; `mentioned_coins` is stored in the database as a JSON text
produced by `set_mentioned_coins_list` and read back by
`get_mentioned_coins_list`; we model it by the (JSON-roundtripped) list itself. -/
structure NewsItem where
  id : ℕ
  title : String
  original_content : String
  source_url : String
  received_at : ℤ
  summary : String
  sentiment : String
  sentiment_score : ℚ
  mentioned_coins : List JValue
  is_major : Bool

/-- models.py, class NewsItemCreate: the POST /push_news request body. -/
structure NewsItemCreate where
  title : String
  content : String
  source_url : String

/-- models.py, class PushNewsResponse. -/
structure PushNewsResponse where
  status : String
  message : String
  id : ℕ

/-- models.py, class MarketSentimentResponse. -/
structure MarketSentimentResponse where
  market_sentiment_normalized : ℚ
  news_count : ℕ
  max_score : Option ℚ
  min_score : Option ℚ
  max_score_news_id : Option ℕ
  min_score_news_id : Option ℕ

/-- models.py, class NewsListResponse.  The source maps each row to a
NewsItemResponse copying every field one-to-one (main.py lines 210-225); we
keep the rows themselves. -/
structure NewsListResponse where
  items : List NewsItem
  total : ℕ
  page : ℕ
  page_size : ℕ
  total_pages : ℕ

/-- An HTTPException as raised by the endpoints (status code + detail). -/
structure HttpError where
  status : ℕ
  detail : String

/-- Python truthiness of an `Optional[str]`: `None` and `""` are falsy
(main.py line 149, `if search:`). -/
def truthy : Option String → Bool
  | none => false
  | some s => !(s == "")

/-- The SQL comparison `received_at >= cutoff` where `cutoff` may be NULL
(SQLAlchemy renders a Python `None` operand as the SQL literal `NULL`).
Under SQL three-valued logic `x >= NULL` is UNKNOWN, and a WHERE clause keeps
a row only when its condition is true, so a NULL cutoff keeps no row. -/
def cmpGeNull (t : ℤ) (cutoff : Option ℤ) : Bool :=
  match cutoff with
  | none => false
  | some c => decide (c ≤ t)

/-- Lower-case a character list (models the case-insensitive utf8mb4 collation
used by MySQL string comparison; inputs in this development are ASCII). -/
def lowerChars (cs : List Char) : List Char := cs.map Char.toLower

/-- Does the first list occur as a prefix of the second? -/
def startsWithChars : List Char → List Char → Bool
  | [], _ => true
  | _ :: _, [] => false
  | a :: as, b :: bs => a == b && startsWithChars as bs

/-- Does the needle occur as a contiguous sublist of the haystack? -/
def hasSubChars (needle : List Char) : List Char → Bool
  | [] => needle.isEmpty
  | c :: rest => startsWithChars needle (c :: rest) || hasSubChars needle rest

/-- Try `k` at every suffix of the string (used to interpret `%`, which in a
SQL LIKE pattern matches any sequence of characters). -/
def skipSearch (k : List Char → Bool) : List Char → Bool
  | [] => k []
  | c :: s2 => k (c :: s2) || skipSearch k s2

/-- Core SQL LIKE matcher on (already lower-cased) character lists: `%` matches
any sequence, `_` matches exactly one character, anything else matches itself. -/
def likeCore : List Char → List Char → Bool
  | [] => fun s => s.isEmpty
  | p :: ps => fun s =>
      if p = '%' then skipSearch (likeCore ps) s
      else
        match s with
        | [] => false
        | c :: s2 => (p == '_' || p == c) && likeCore ps s2

/-- MySQL `column LIKE pattern` under the default case-insensitive utf8mb4
collation (database URL uses charset=utf8mb4; columns keep the default
collation, so LIKE compares case-insensitively). -/
def sqlLike (pat : String) (s : String) : Bool :=
  likeCore (lowerChars pat.data) (lowerChars s.data)

/-- Stable insertion of `a` into `l`, where `le a b` means `a` may come before
`b` (models the ORDER BY of the SQL queries). -/
def insertOrd {α : Type} (le : α → α → Bool) (a : α) : List α → List α
  | [] => [a]
  | b :: bs => if le a b then a :: b :: bs else b :: insertOrd le a bs

/-- Stable insertion sort by `le` (models a SQL ORDER BY clause). -/
def sortOrd {α : Type} (le : α → α → Bool) : List α → List α
  | [] => []
  | a :: as => insertOrd le a (sortOrd le as)

/-- ORDER BY received_at DESC (main.py lines 187, 205). -/
def recOrd (a b : NewsItem) : Bool := decide (b.received_at ≤ a.received_at)

/-- ORDER BY relevance DESC, received_at DESC (database.py lines 96, 127). -/
def ftOrd (rv : NewsItem → ℚ) (a b : NewsItem) : Bool :=
  decide (rv b < rv a ∨ (rv a = rv b ∧ b.received_at ≤ a.received_at))

/-- Python `max(scores)` on a non-empty list ([] defaults to 0, unreachable). -/
def listMaxD : List ℚ → ℚ
  | [] => 0
  | a :: as => as.foldl max a

/-- Python `min(scores)` on a non-empty list ([] defaults to 0, unreachable). -/
def listMinD : List ℚ → ℚ
  | [] => 0
  | a :: as => as.foldl min a

/-- Python `round(x, n)` rounds half to even ("banker's rounding"); this is the
integer-valued core (the source applies it at 4 decimal places). -/
def roundHalfEven (q : ℚ) : ℤ :=
  let f : ℤ := ⌊q⌋
  if q - (f : ℚ) < mkRat 1 2 then f
  else if mkRat 1 2 < q - (f : ℚ) then f + 1
  else if f % 2 = 0 then f else f + 1

/-- Python `round(x, 4)` (main.py line 308) on exact rationals. -/
def round4 (q : ℚ) : ℚ := (roundHalfEven (q * 10000) : ℚ) / 10000

/-- The raw classifier response after JSON parsing, with all four required
fields present (deepseek_client.py lines 74-77 raise otherwise, which the
`api` argument of `analyze_news` models as `Except.error`).  The
`mentioned_coins` field is dynamically typed, hence `JValue`. -/
structure RawResponse where
  summary : String
  sentiment : String
  sentiment_score : ℚ
  mentioned_coins : JValue

/-- The normalized analysis handed to push_news: `mentioned_coins` is by then
known to be a JSON list. -/
structure Analysis where
  summary : String
  sentiment : String
  sentiment_score : ℚ
  mentioned_coins : List JValue

/-- DeepSeekClient.analyze_news, lines 79-101: the validation/normalization of
a parsed response that already has all four required fields.
Order as in the source: (1) if `sentiment` is not one of the three recognized
labels, rewrite it from the (raw) score: score > 0.6 → positive,
score < 0.4 → negative, else neutral; (2) if the score is outside [0, 1],
clamp it with `max(0.0, min(1.0, score))`; (3) if `mentioned_coins` is not a
list, replace it with `[]`. -/
def analyzeNormalize (result : RawResponse) : RawResponse :=
  let sentiment :=
    if result.sentiment = "positive" ∨ result.sentiment = "negative" ∨
        result.sentiment = "neutral" then
      result.sentiment
    else if mkRat 3 5 < result.sentiment_score then "positive"
    else if result.sentiment_score < mkRat 2 5 then "negative"
    else "neutral"
  let sentiment_score :=
    if 0 ≤ result.sentiment_score ∧ result.sentiment_score ≤ 1 then
      result.sentiment_score
    else max 0 (min 1 result.sentiment_score)
  let mentioned_coins :=
    match result.mentioned_coins with
    | JValue.jlist xs => JValue.jlist xs
    | _ => JValue.jlist []
  { summary := result.summary
  , sentiment := sentiment
  , sentiment_score := sentiment_score
  , mentioned_coins := mentioned_coins }

/-- Extract the list from a (post-normalization) `mentioned_coins` value. -/
def coinsAsList : JValue → List JValue
  | JValue.jlist xs => xs
  | _ => []

/-- analyze_news_with_deepseek: the external call + JSON decode + required-field
check (all failure modes collapsed into the `api` argument's `Except.error`,
matching the single exception the client re-raises), followed by the
normalization above.  No retry: `api` is applied exactly once. -/
def analyze_news (api : String → Except String RawResponse) (content : String) :
    Except String Analysis :=
  match api content with
  | Except.error e => Except.error e
  | Except.ok result =>
      let n := analyzeNormalize result
      Except.ok { summary := n.summary
                , sentiment := n.sentiment
                , sentiment_score := n.sentiment_score
                , mentioned_coins := coinsAsList n.mentioned_coins }

/-- main.py lines 89-90: a news item is "major" iff its score is strictly below
the low threshold or strictly above the high threshold. -/
def is_major (score low high : ℚ) : Bool :=
  decide (score < low) || decide (high < score)

/-- POST /push_news (main.py lines 61-123).  Returns the resulting store and
either the success response or the HTTPException raised; the whole handler
body is wrapped in try/except, and the except branch rolls the session back
and raises a 500, so on failure the store is returned unchanged. -/
def push_news (st : Settings) (classify : String → Except String Analysis)
    (news_data : NewsItemCreate) (store : List NewsItem) (now : ℤ) (nid : ℕ) :
    List NewsItem × Except HttpError PushNewsResponse :=
  let analysisResult : Except String Analysis :=
    if st.enable_ai_analysis then classify news_data.content
    else
      Except.ok
        { summary :=
            if news_data.content.length > 200 then news_data.content.take 200
            else news_data.content
        , sentiment := "neutral"
        , sentiment_score := mkRat 1 2
        , mentioned_coins := [] }
  match analysisResult with
  | Except.error e =>
      (store, Except.error { status := 500, detail := "处理新闻时发生错误: " ++ e })
  | Except.ok a =>
      let news_item : NewsItem :=
        { id := nid
        , title := news_data.title
        , original_content := news_data.content
        , source_url := news_data.source_url
        , received_at := now
        , summary := a.summary
        , sentiment := a.sentiment
        , sentiment_score := a.sentiment_score
        , mentioned_coins := a.mentioned_coins
        , is_major := is_major a.sentiment_score st.major_news_threshold_low
            st.major_news_threshold_high }
      (store ++ [news_item],
       Except.ok { status := "success", message := "News received and analyzed."
                 , id := nid })

/-- cleanup_old_news (main.py lines 44-58): delete every item whose
received_at is strictly before now - retention_hours. -/
def cleanup_old_news (st : Settings) (now : ℤ) (store : List NewsItem) :
    List NewsItem :=
  let cutoff_time := now - (st.news_retention_hours : ℤ) * 3600
  store.filter (fun n => !(decide (n.received_at < cutoff_time)))

/-- database.py fulltext_search (lines 64-176).  `rel` models the MySQL
`MATCH(title, original_content, summary) AGAINST(term IN NATURAL LANGUAGE
MODE)` relevance score; a row satisfies the WHERE clause iff that score is
truthy, i.e. > 0.  The `cutoff_time` parameter is accepted but unused (its
use is commented out at line 111).  Returns (page of rows, total count);
the caller treats the mechanism's failure separately (`ft = none` below). -/
def fulltext_search (rel : String → NewsItem → ℚ) (store : List NewsItem)
    (search_term : String) (cutoff_time : Option ℤ) (page : ℕ) (page_size : ℕ)
    (relevance_threshold : Option ℚ) : List NewsItem × ℕ :=
  let _ := cutoff_time
  let offset := (page - 1) * page_size
  let rv := rel search_term
  match relevance_threshold with
  | some t =>
      if 0 < t then
        let matched := store.filter (fun n => decide (0 < rv n) && decide (t ≤ rv n))
        (((sortOrd (ftOrd rv) matched).drop offset).take page_size, matched.length)
      else
        let matched := store.filter (fun n => decide (0 < rv n))
        (((sortOrd (ftOrd rv) matched).drop offset).take page_size, matched.length)
  | none =>
      let matched := store.filter (fun n => decide (0 < rv n))
      (((sortOrd (ftOrd rv) matched).drop offset).take page_size, matched.length)

/-- GET /get_news, branch selection (main.py lines 142-207): computes the
page of rows and the total count.  `cutoff_time` is the Python `None` of line
143.  `ft` is `some rel` when the full-text mechanism works and `none` when it
raises (database.py then returns `(None, None, False)` and main.py falls back
to the LIKE query).  Note that main.py calls fulltext_search positionally
without forwarding `relevance_threshold`, so that argument is the default
`None`; the received `relevance_threshold` parameter is never read. -/
def select_news (ft : Option (String → NewsItem → ℚ)) (store : List NewsItem)
    (search : Option String) (relevance_threshold : Option ℚ)
    (page : ℕ) (page_size : ℕ) : List NewsItem × ℕ :=
  let _ := relevance_threshold
  let cutoff_time : Option ℤ := none
  if truthy search then
    let s := search.getD ""
    match ft with
    | some rel => fulltext_search rel store s cutoff_time page page_size none
    | none =>
        let search_pattern := "%" ++ s ++ "%"
        let matched := store.filter (fun n =>
          cmpGeNull n.received_at cutoff_time &&
          (sqlLike search_pattern n.title ||
           sqlLike search_pattern n.original_content ||
           sqlLike search_pattern n.summary))
        (((sortOrd recOrd matched).drop ((page - 1) * page_size)).take page_size,
         matched.length)
  else
    let matched := store.filter (fun n => cmpGeNull n.received_at cutoff_time)
    (((sortOrd recOrd matched).drop ((page - 1) * page_size)).take page_size,
     matched.length)

/-- GET /get_news (main.py lines 126-236): branch selection plus the common
response assembly; total_pages = (total + page_size - 1) // page_size when
total > 0, else 0 (line 228). -/
def get_news (ft : Option (String → NewsItem → ℚ)) (store : List NewsItem)
    (search : Option String) (relevance_threshold : Option ℚ)
    (page : ℕ) (page_size : ℕ) : NewsListResponse :=
  let res := select_news ft store search relevance_threshold page page_size
  { items := res.1
  , total := res.2
  , page := page
  , page_size := page_size
  , total_pages := if 0 < res.2 then (res.2 + page_size - 1) / page_size else 0 }

/-- GET /get_market_sentiment (main.py lines 275-314): over items received in
the last retention window, return the rounded mean score, the count, the
extreme scores, and the id of the first item carrying each extreme score
(`next(news for news in news_items if news.sentiment_score == ...)`). -/
def get_market_sentiment (store : List NewsItem) (now : ℤ) (st : Settings) :
    MarketSentimentResponse :=
  let cutoff_time := now - (st.news_retention_hours : ℤ) * 3600
  let news_items := store.filter (fun n => decide (cutoff_time ≤ n.received_at))
  match news_items with
  | [] =>
      { market_sentiment_normalized := mkRat 1 2
      , news_count := 0
      , max_score := none, min_score := none
      , max_score_news_id := none, min_score_news_id := none }
  | n0 :: rest =>
      let scores := (n0 :: rest).map (fun n => n.sentiment_score)
      let avg_score := scores.sum / (scores.length : ℚ)
      let max_score := listMaxD scores
      let min_score := listMinD scores
      let max_news := (n0 :: rest).find? (fun n => decide (n.sentiment_score = max_score))
      let min_news := (n0 :: rest).find? (fun n => decide (n.sentiment_score = min_score))
      { market_sentiment_normalized := round4 avg_score
      , news_count := (n0 :: rest).length
      , max_score := some max_score
      , min_score := some min_score
      , max_score_news_id := max_news.map (fun n => n.id)
      , min_score_news_id := min_news.map (fun n => n.id) }

/-- The naive case-insensitive predicate named by the spec for the search
fallback (claim C8): the search term occurs as a substring of the title, the
original content, or the summary, compared case-insensitively. -/
def naive_ci_substring_match (term : String) (n : NewsItem) : Bool :=
  hasSubChars (lowerChars term.data) (lowerChars n.title.data) ||
  hasSubChars (lowerChars term.data) (lowerChars n.original_content.data) ||
  hasSubChars (lowerChars term.data) (lowerChars n.summary.data)

/-! ### Helper lemmas -/

theorem length_insertOrd {α : Type} (le : α → α → Bool) (a : α) (l : List α) :
    (insertOrd le a l).length = l.length + 1 := by
  induction l with
  | nil => rfl
  | cons b bs ih =>
      simp only [insertOrd]
      split
      · simp
      · simp [ih]

theorem length_sortOrd {α : Type} (le : α → α → Bool) (l : List α) :
    (sortOrd le l).length = l.length := by
  induction l with
  | nil => rfl
  | cons a as ih => simp [sortOrd, length_insertOrd, ih]

theorem le_foldl_max (l : List ℚ) (a : ℚ) : a ≤ l.foldl max a := by
  induction l generalizing a with
  | nil => simp
  | cons b bs ih =>
      simp only [List.foldl_cons]
      exact le_trans (le_max_left a b) (ih (max a b))

theorem foldl_max_choice (l : List ℚ) (a : ℚ) :
    l.foldl max a = a ∨ l.foldl max a ∈ l := by
  induction l generalizing a with
  | nil => simp
  | cons b bs ih =>
      simp only [List.foldl_cons]
      rcases ih (max a b) with h | h
      · rcases max_choice a b with hm | hm
        · exact Or.inl (h.trans hm)
        · exact Or.inr (by rw [h, hm]; exact List.mem_cons_self b bs)
      · exact Or.inr (List.mem_cons_of_mem b h)

theorem le_foldl_max_of_mem {x : ℚ} {l : List ℚ} (hx : x ∈ l) (a : ℚ) :
    x ≤ l.foldl max a := by
  induction l generalizing a with
  | nil => cases hx
  | cons b bs ih =>
      simp only [List.foldl_cons]
      rcases List.mem_cons.mp hx with h | h
      · subst h
        exact le_trans (le_max_right a x) (le_foldl_max bs (max a x))
      · exact ih h (max a b)

theorem foldl_min_le (l : List ℚ) (a : ℚ) : l.foldl min a ≤ a := by
  induction l generalizing a with
  | nil => simp
  | cons b bs ih =>
      simp only [List.foldl_cons]
      exact le_trans (ih (min a b)) (min_le_left a b)

theorem foldl_min_choice (l : List ℚ) (a : ℚ) :
    l.foldl min a = a ∨ l.foldl min a ∈ l := by
  induction l generalizing a with
  | nil => simp
  | cons b bs ih =>
      simp only [List.foldl_cons]
      rcases ih (min a b) with h | h
      · rcases min_choice a b with hm | hm
        · exact Or.inl (h.trans hm)
        · exact Or.inr (by rw [h, hm]; exact List.mem_cons_self b bs)
      · exact Or.inr (List.mem_cons_of_mem b h)

theorem foldl_min_le_of_mem {x : ℚ} {l : List ℚ} (hx : x ∈ l) (a : ℚ) :
    l.foldl min a ≤ x := by
  induction l generalizing a with
  | nil => cases hx
  | cons b bs ih =>
      simp only [List.foldl_cons]
      rcases List.mem_cons.mp hx with h | h
      · subst h
        exact le_trans (foldl_min_le bs (min a x)) (min_le_right a x)
      · exact ih h (min a b)

theorem listMaxD_spec {l : List ℚ} (h : l ≠ []) :
    listMaxD l ∈ l ∧ ∀ x ∈ l, x ≤ listMaxD l := by
  cases l with
  | nil => cases h rfl
  | cons a as =>
      constructor
      · rcases foldl_max_choice as a with hc | hc
        · simp [listMaxD, hc]
        · simp [listMaxD, hc]
      · intro x hx
        rcases List.mem_cons.mp hx with hx | hx
        · subst hx; exact le_foldl_max as x
        · exact le_foldl_max_of_mem hx a

theorem listMinD_spec {l : List ℚ} (h : l ≠ []) :
    listMinD l ∈ l ∧ ∀ x ∈ l, listMinD l ≤ x := by
  cases l with
  | nil => cases h rfl
  | cons a as =>
      constructor
      · rcases foldl_min_choice as a with hc | hc
        · simp [listMinD, hc]
        · simp [listMinD, hc]
      · intro x hx
        rcases List.mem_cons.mp hx with hx | hx
        · subst hx; exact foldl_min_le as x
        · exact foldl_min_le_of_mem hx a

theorem mul_pages_ge (t p : ℕ) (hp : 0 < p) : t ≤ ((t + p - 1) / p) * p := by
  have e := Nat.div_add_mod (t + p - 1) p
  have hr : (t + p - 1) % p < p := Nat.mod_lt _ hp
  set q := (t + p - 1) / p with hq
  set r := (t + p - 1) % p with hrdef
  have hqp : q * p = p * q := Nat.mul_comm q p
  omega

theorem ceil_formula (t p : ℕ) (hp : 0 < p) :
    (((if 0 < t then (t + p - 1) / p else 0) : ℕ) : ℤ) = ⌈(t : ℚ) / (p : ℚ)⌉ := by
  rcases Nat.eq_zero_or_pos t with ht | ht
  · subst ht
    simp
  · rw [if_pos ht]
    have hpq : (0 : ℚ) < (p : ℚ) := by exact_mod_cast hp
    set q := (t + p - 1) / p with hqdef
    have hub : t ≤ q * p := mul_pages_ge t p hp
    have hq1 : 1 ≤ q := by
      rw [hqdef]
      rw [Nat.one_le_div_iff hp]
      omega
    have hlb : (q - 1) * p < t := by
      have e := Nat.div_add_mod (t + p - 1) p
      have hr : (t + p - 1) % p < p := Nat.mod_lt _ hp
      rw [← hqdef] at e
      have hqe : (q - 1) * p = q * p - p := by
        cases q with
        | zero => omega
        | succ k => simp [Nat.succ_sub_one, Nat.succ_mul]
      set pq := p * q with hpq
      have hqp : q * p = pq := Nat.mul_comm q p
      omega
    symm
    rw [Int.ceil_eq_iff]
    constructor
    · rw [lt_div_iff₀ hpq]
      have : ((q : ℚ) - 1) * p < t := by
        have hcast : ((q - 1 : ℕ) : ℚ) = (q : ℚ) - 1 := by
          push_cast [Nat.cast_sub hq1]
          ring
        rw [← hcast]
        exact_mod_cast hlb
      push_cast
      push_cast at this
      linarith
    · rw [div_le_iff₀ hpq]
      exact_mod_cast hub

theorem beyond_last_page {α : Type} (l : List α) (page psize : ℕ) (hp : 0 < psize)
    (h : (if 0 < l.length then (l.length + psize - 1) / psize else 0) < page) :
    (List.take psize (List.drop ((page - 1) * psize) l)) = [] := by
  rcases Nat.eq_zero_or_pos l.length with ht | ht
  · have : l = [] := List.length_eq_zero.mp ht
    simp [this]
  · rw [if_pos ht] at h
    set q := (l.length + psize - 1) / psize with hq
    have hub : l.length ≤ q * psize := mul_pages_ge l.length psize hp
    have hpage : q ≤ page - 1 := by omega
    have : l.length ≤ (page - 1) * psize :=
      le_trans hub (Nat.mul_le_mul_right psize hpage)
    rw [List.drop_eq_nil_of_le this]
    simp

/-- Every branch of select_news returns some ordered row list `l` paged by
`offset = (page-1)*page_size` together with `l.length` as the total; `l` does
not depend on the page. -/
theorem select_news_shape (ft : Option (String → NewsItem → ℚ)) (store : List NewsItem)
    (search : Option String) (rt : Option ℚ) (psize : ℕ) :
    ∃ l : List NewsItem, ∀ page : ℕ,
      select_news ft store search rt page psize =
        (List.take psize (List.drop ((page - 1) * psize) l), l.length) := by
  by_cases hts : truthy search = true
  · cases ft with
    | none =>
        refine ⟨sortOrd recOrd (store.filter fun n =>
          cmpGeNull n.received_at none &&
          (sqlLike ("%" ++ search.getD "" ++ "%") n.title ||
           sqlLike ("%" ++ search.getD "" ++ "%") n.original_content ||
           sqlLike ("%" ++ search.getD "" ++ "%") n.summary)), fun page => ?_⟩
        simp [select_news, hts, length_sortOrd]
    | some rel =>
        refine ⟨sortOrd (ftOrd (rel (search.getD ""))) (store.filter fun n =>
          decide (0 < rel (search.getD "") n)), fun page => ?_⟩
        simp [select_news, fulltext_search, hts, length_sortOrd]
  · refine ⟨sortOrd recOrd (store.filter fun n => cmpGeNull n.received_at none),
      fun page => ?_⟩
    simp [select_news, hts, length_sortOrd]

/-- Claim C7: for every List result with total matched items t and page size
p > 0, total_pages equals ceil(t / p) (hence 0 when t = 0), and for every page
number beyond the last page the item list is empty while total is the same as
on page 1. -/
theorem c7_get_news_pagination (ft : Option (String → NewsItem → ℚ))
    (store : List NewsItem) (search : Option String) (rt : Option ℚ)
    (page psize : ℕ) (r : NewsListResponse)
    (hp : 0 < psize) (hr : r = get_news ft store search rt page psize) :
    ((r.total_pages : ℤ) = ⌈(r.total : ℚ) / (psize : ℚ)⌉) ∧
    (r.total = 0 → r.total_pages = 0) ∧
    (r.total_pages < page → r.items = []) ∧
    r.total = (get_news ft store search rt 1 psize).total := by
  obtain ⟨l, hl⟩ := select_news_shape ft store search rt psize
  subst hr
  simp only [get_news, hl page, hl 1]
  refine ⟨ceil_formula l.length psize hp, ?_, ?_, trivial⟩
  · intro h0
    simp [h0]
  · intro hbeyond
    exact beyond_last_page l page psize hp hbeyond

/-- Witness for C7 at a concrete input (empty store, page 3 of size 20). -/
theorem c7_get_news_pagination_witness :
    0 < 20 ∧
    ((((get_news none [] none none 3 20).total_pages : ℤ) =
        ⌈((get_news none [] none none 3 20).total : ℚ) / ((20 : ℕ) : ℚ)⌉) ∧
     ((get_news none [] none none 3 20).total = 0 →
        (get_news none [] none none 3 20).total_pages = 0) ∧
     ((get_news none [] none none 3 20).total_pages < 3 →
        (get_news none [] none none 3 20).items = []) ∧
     (get_news none [] none none 3 20).total = (get_news none [] none none 1 20).total) :=
  ⟨by decide,
   c7_get_news_pagination none [] none none 3 20 (get_news none [] none none 3 20)
     (by decide) rfl⟩

/-- Claim C10: two get_news requests that differ only in relevance_threshold
yield identical responses: main.py accepts the parameter but never forwards it
to fulltext_search (which therefore defaults it to None) and the LIKE fallback
does not use it either. -/
theorem c10_relevance_threshold_no_effect (ft : Option (String → NewsItem → ℚ))
    (store : List NewsItem) (search : Option String) (rt1 rt2 : Option ℚ)
    (page psize : ℕ) :
    get_news ft store search rt1 page psize = get_news ft store search rt2 page psize :=
  rfl

/-- A persisted row used to evaluate the listing path of claim C1. -/
def c1_item : NewsItem :=
  { id := 1, title := "a", original_content := "b", source_url := "c",
    received_at := 0, summary := "d", sentiment := "neutral", sentiment_score := 1,
    mentioned_coins := [], is_major := false }

/-- Claim C1 (code-bug evidence): the claim says listing selects from all
persisted rows regardless of received_at; but with one persisted row and no
search term, get_news filters on `received_at >= NULL` (cutoff_time is the
Python None of main.py line 143), which no row satisfies, so it returns no
items and total 0. -/
theorem c1_get_news_no_search_returns_no_rows :
    (get_news none [c1_item] none none 1 20).items = [] ∧
    (get_news none [c1_item] none none 1 20).total = 0 ∧
    (get_news none [c1_item] none none 1 20).total_pages = 0 ∧
    ([c1_item] : List NewsItem).length = 1 :=
  ⟨rfl, rfl, rfl, rfl⟩

/-- A persisted row whose title contains the search term, used to evaluate the
LIKE-fallback path of claim C8. -/
def c8_item : NewsItem :=
  { id := 1, title := "BTC rallies", original_content := "Bitcoin is up",
    source_url := "https://x", received_at := 0, summary := "market news",
    sentiment := "positive", sentiment_score := 1, mentioned_coins := [],
    is_major := true }

/-- Claim C8 (code-bug evidence): the claim says that when the full-text
mechanism fails, the LIKE fallback selects exactly the rows the naive
case-insensitive substring predicate selects; but the fallback query also
filters on `received_at >= NULL` (main.py line 164), which no row satisfies,
so it returns nothing even though the naive predicate selects the row. -/
theorem c8_fallback_differs_from_naive_predicate :
    (get_news none [c8_item] (some "btc") none 1 20).items = [] ∧
    (get_news none [c8_item] (some "btc") none 1 20).total = 0 ∧
    List.filter (naive_ci_substring_match "btc") [c8_item] = [c8_item] :=
  ⟨rfl, rfl, rfl⟩

/-- A string of length at most n is unchanged by take n. -/
theorem string_take_of_le (s : String) (n : ℕ) (h : s.length ≤ n) : s.take n = s := by
  apply String.ext
  rw [String.data_take]
  exact List.take_of_length_le h

/-- Claim C2: the is_major flag is true iff score < low or score > high; a
score equal to a threshold is not major; the configured defaults are 0.2/0.8;
and the item stored by push_news carries exactly this flag for its stored
score and the configured thresholds. -/
theorem c2_is_major_rule :
    (∀ s low high : ℚ, is_major s low high = true ↔ (s < low ∨ s > high)) ∧
    (∀ low high : ℚ, low ≤ high →
      is_major low low high = false ∧ is_major high low high = false) ∧
    defaultSettings.major_news_threshold_low = 1/5 ∧
    defaultSettings.major_news_threshold_high = 4/5 ∧
    (∀ st classify news_data store now nid item,
      (push_news st classify news_data store now nid).1 = store ++ [item] →
      item.is_major = is_major item.sentiment_score st.major_news_threshold_low
        st.major_news_threshold_high) := by
  refine ⟨?_, ?_, ?_, ?_, ?_⟩
  · intro s low high
    simp [is_major, gt_iff_lt, Bool.or_eq_true]
  · intro low high hle
    constructor
    · simp [is_major, lt_irrefl]
      exact hle
    · simp [is_major, lt_irrefl]
      exact hle
  · norm_num [defaultSettings, mkRat, Rat.normalize]
  · norm_num [defaultSettings, mkRat, Rat.normalize]
  · intro st classify news_data store now nid item h
    simp only [push_news] at h
    split at h
    · exfalso
      have hlen := congrArg List.length h
      simp [List.length_append] at hlen
    · simp only [Prod.fst] at h
      have := List.append_cancel_left h
      have hitem : item = _ := (List.singleton_injective this).symm
      rw [hitem]

/-- Witness for C2: with the default thresholds, a score sitting exactly on a
threshold is not flagged major. -/
theorem c2_is_major_rule_witness :
    is_major (mkRat 1 5) (mkRat 1 5) (mkRat 4 5) = false ∧
    is_major (mkRat 4 5) (mkRat 1 5) (mkRat 4 5) = false :=
  c2_is_major_rule.2.1 (mkRat 1 5) (mkRat 4 5) (by decide)

/-- Claim C6: when AI analysis is enabled and the classifier call (or its
response parsing) fails, push_news aborts the whole request: it leaves the
store exactly as it was (rollback, no partial insert) and surfaces a generic
500 server error; the classifier is applied exactly once (no retry). -/
theorem c6_classifier_failure_aborts (st : Settings)
    (classify : String → Except String Analysis) (news_data : NewsItemCreate)
    (store : List NewsItem) (now : ℤ) (nid : ℕ) (msg : String)
    (hE : st.enable_ai_analysis = true)
    (hC : classify news_data.content = Except.error msg) :
    push_news st classify news_data store now nid =
      (store, Except.error { status := 500, detail := "处理新闻时发生错误: " ++ msg }) := by
  simp only [push_news, hE, if_true, hC]

/-- Witness for C6 at a concrete failing classifier. -/
theorem c6_classifier_failure_aborts_witness :
    push_news defaultSettings (fun _ => Except.error "boom") ⟨"t", "c", "u"⟩ [] 0 1 =
      ([], Except.error { status := 500, detail := "处理新闻时发生错误: " ++ "boom" }) :=
  c6_classifier_failure_aborts defaultSettings (fun _ => Except.error "boom")
    ⟨"t", "c", "u"⟩ [] 0 1 "boom" rfl rfl

/-- Claim C3: for a classifier response with all four required fields, the
normalization keeps the summary; keeps a recognized sentiment label and
otherwise rewrites it from the score alone (score > 0.6 → positive,
score < 0.4 → negative, else neutral); replaces a score outside [0,1] by
max(0, min(1, score)) and keeps an in-range score; replaces a non-list
mentioned_assets by the empty list and keeps a list unchanged. -/
theorem c3_analyze_normalize_fields (r : RawResponse) :
    (analyzeNormalize r).summary = r.summary ∧
    ((r.sentiment = "positive" ∨ r.sentiment = "negative" ∨ r.sentiment = "neutral") →
      (analyzeNormalize r).sentiment = r.sentiment) ∧
    (¬(r.sentiment = "positive" ∨ r.sentiment = "negative" ∨ r.sentiment = "neutral") →
      ((mkRat 3 5 < r.sentiment_score → (analyzeNormalize r).sentiment = "positive") ∧
       (r.sentiment_score < mkRat 2 5 → (analyzeNormalize r).sentiment = "negative") ∧
       (¬ mkRat 3 5 < r.sentiment_score → ¬ r.sentiment_score < mkRat 2 5 →
         (analyzeNormalize r).sentiment = "neutral"))) ∧
    ((r.sentiment_score < 0 ∨ 1 < r.sentiment_score) →
      (analyzeNormalize r).sentiment_score = max 0 (min 1 r.sentiment_score)) ∧
    (0 ≤ r.sentiment_score → r.sentiment_score ≤ 1 →
      (analyzeNormalize r).sentiment_score = r.sentiment_score) ∧
    (∀ xs, r.mentioned_coins = JValue.jlist xs →
      (analyzeNormalize r).mentioned_coins = JValue.jlist xs) ∧
    ((∀ xs, r.mentioned_coins ≠ JValue.jlist xs) →
      (analyzeNormalize r).mentioned_coins = JValue.jlist []) := by
  refine ⟨rfl, ?_, ?_, ?_, ?_, ?_, ?_⟩
  · intro h
    simp [analyzeNormalize, h]
  · intro h
    refine ⟨?_, ?_, ?_⟩
    · intro hhi
      simp [analyzeNormalize, h, hhi]
    · intro hlo
      have hhi : ¬ mkRat 3 5 < r.sentiment_score := by
        have h23 : (mkRat 2 5 : ℚ) ≤ mkRat 3 5 := by decide
        intro hcon
        exact absurd hlo (not_lt.mpr (le_trans h23 (le_of_lt hcon)))
      simp [analyzeNormalize, h, hhi, hlo]
    · intro hhi hlo
      simp [analyzeNormalize, h, hhi, hlo]
  · intro h
    have hne : ¬(0 ≤ r.sentiment_score ∧ r.sentiment_score ≤ 1) := by
      rcases h with h | h
      · exact fun hc => absurd h (not_lt.mpr hc.1)
      · exact fun hc => absurd h (not_lt.mpr hc.2)
    simp [analyzeNormalize, hne]
  · intro h0 h1
    simp [analyzeNormalize, h0, h1]
  · intro xs hxs
    simp [analyzeNormalize, hxs]
  · intro h
    cases hc : r.mentioned_coins with
    | jnull => simp [analyzeNormalize, hc]
    | jbool b => simp [analyzeNormalize, hc]
    | jnum q => simp [analyzeNormalize, hc]
    | jstr s => simp [analyzeNormalize, hc]
    | jlist xs => exact absurd hc (h xs)

/-- A concrete out-of-spec classifier response: unrecognized label, score out
of range, mentioned_assets not a list. -/
def c3_raw : RawResponse :=
  { summary := "s", sentiment := "bullish", sentiment_score := mkRat 7 2,
    mentioned_coins := JValue.jnull }

/-- Witness for C3 at a concrete out-of-spec response. -/
theorem c3_analyze_normalize_fields_witness :
    (analyzeNormalize c3_raw).sentiment = "positive" ∧
    (analyzeNormalize c3_raw).sentiment_score = max 0 (min 1 (mkRat 7 2)) ∧
    (analyzeNormalize c3_raw).mentioned_coins = JValue.jlist [] := by
  refine ⟨?_, ?_, ?_⟩
  · exact ((c3_analyze_normalize_fields c3_raw).2.2.1 (by decide)).1 (by decide)
  · exact (c3_analyze_normalize_fields c3_raw).2.2.2.1 (Or.inr (by decide))
  · refine (c3_analyze_normalize_fields c3_raw).2.2.2.2.2.2 ?_
    intro xs h
    simp [c3_raw] at h

/-- Claim C4: with AI analysis disabled, push_news persists exactly one new
item whose summary is the first 200 characters of the content (the whole
content when it has at most 200 characters), sentiment neutral, score 0.5,
empty mentioned-assets list, and is_major false under the default 0.2/0.8
thresholds; the response reports success with the new id. -/
theorem c4_push_news_ai_disabled (classify : String → Except String Analysis)
    (news_data : NewsItemCreate) (store : List NewsItem) (now : ℤ) (nid : ℕ) :
    ∃ item : NewsItem,
      push_news { defaultSettings with enable_ai_analysis := false } classify
          news_data store now nid =
        (store ++ [item],
         Except.ok { status := "success", message := "News received and analyzed."
                   , id := nid }) ∧
      item.summary = news_data.content.take 200 ∧
      (news_data.content.length ≤ 200 → item.summary = news_data.content) ∧
      item.sentiment = "neutral" ∧
      item.sentiment_score = 1/2 ∧
      item.mentioned_coins = [] ∧
      item.is_major = false := by
  refine ⟨_, rfl, ?_, ?_, rfl, ?_, rfl, ?_⟩
  · by_cases h : news_data.content.length > 200
    · simp [h]
    · simp only [if_neg h]
      exact (string_take_of_le news_data.content 200 (not_lt.mp h)).symm
  · intro hle
    simp [Nat.not_lt.mpr hle]
  · show (mkRat 1 2 : ℚ) = 1/2
    norm_num [mkRat, Rat.normalize]
  · show is_major (mkRat 1 2) (mkRat 1 5) (mkRat 4 5) = false
    decide

/-- Witness for C4 at a concrete short submission. -/
theorem c4_push_news_ai_disabled_witness :
    ∃ item : NewsItem,
      push_news { defaultSettings with enable_ai_analysis := false }
          (fun _ => Except.error "x") ⟨"t", "short", "u"⟩ [] 0 1 =
        ([item],
         Except.ok { status := "success", message := "News received and analyzed."
                   , id := 1 }) ∧
      item.summary = "short" ∧ item.sentiment = "neutral" ∧
      item.sentiment_score = 1/2 ∧ item.mentioned_coins = [] ∧
      item.is_major = false := by
  obtain ⟨item, heq, _, hshort, hneu, hscore, hcoins, hmajor⟩ :=
    c4_push_news_ai_disabled (fun _ => Except.error "x") ⟨"t", "short", "u"⟩ [] 0 1
  exact ⟨item, by simpa using heq, hshort (by decide), hneu, hscore, hcoins, hmajor⟩

/-- Claim C5: MarketSentiment over an empty window returns average 0.5, count
0 and no extrema; over a non-empty window it returns the rounded-to-4-places
mean of the scores, the item count, the maximum and minimum scores, and ids of
items actually holding those extreme scores. -/
theorem c5_market_sentiment (store : List NewsItem) (now : ℤ) (st : Settings)
    (news_items : List NewsItem)
    (hni : news_items = store.filter (fun n =>
      decide (now - (st.news_retention_hours : ℤ) * 3600 ≤ n.received_at))) :
    (news_items = [] →
      get_market_sentiment store now st =
        { market_sentiment_normalized := mkRat 1 2, news_count := 0,
          max_score := none, min_score := none,
          max_score_news_id := none, min_score_news_id := none }) ∧
    (news_items ≠ [] →
      (get_market_sentiment store now st).news_count = news_items.length ∧
      (get_market_sentiment store now st).market_sentiment_normalized =
        round4 ((news_items.map (fun n => n.sentiment_score)).sum /
          ((news_items.map (fun n => n.sentiment_score)).length : ℚ)) ∧
      (∃ M : ℚ,
        (get_market_sentiment store now st).max_score = some M ∧
        M ∈ news_items.map (fun n => n.sentiment_score) ∧
        (∀ x ∈ news_items.map (fun n => n.sentiment_score), x ≤ M) ∧
        (∃ nmax ∈ news_items,
          (get_market_sentiment store now st).max_score_news_id = some nmax.id ∧
          nmax.sentiment_score = M)) ∧
      (∃ m : ℚ,
        (get_market_sentiment store now st).min_score = some m ∧
        m ∈ news_items.map (fun n => n.sentiment_score) ∧
        (∀ x ∈ news_items.map (fun n => n.sentiment_score), m ≤ x) ∧
        (∃ nmin ∈ news_items,
          (get_market_sentiment store now st).min_score_news_id = some nmin.id ∧
          nmin.sentiment_score = m))) := by
  subst hni
  rcases hN : store.filter (fun n =>
      decide (now - (st.news_retention_hours : ℤ) * 3600 ≤ n.received_at)) with _ | ⟨n0, rest⟩
  · rw [hN]
    constructor
    · intro _
      simp only [get_market_sentiment]
      rw [hN]
    · intro hc
      exact absurd rfl hc
  · rw [hN]
    constructor
    · intro hc
      exact absurd hc (List.cons_ne_nil n0 rest)
    · intro _
      have hgms : get_market_sentiment store now st =
          { market_sentiment_normalized :=
              round4 (((n0 :: rest).map (fun n => n.sentiment_score)).sum /
                (((n0 :: rest).map (fun n => n.sentiment_score)).length : ℚ))
          , news_count := (n0 :: rest).length
          , max_score := some (listMaxD ((n0 :: rest).map (fun n => n.sentiment_score)))
          , min_score := some (listMinD ((n0 :: rest).map (fun n => n.sentiment_score)))
          , max_score_news_id := ((n0 :: rest).find? (fun n =>
              decide (n.sentiment_score =
                listMaxD ((n0 :: rest).map (fun n => n.sentiment_score))))).map (fun n => n.id)
          , min_score_news_id := ((n0 :: rest).find? (fun n =>
              decide (n.sentiment_score =
                listMinD ((n0 :: rest).map (fun n => n.sentiment_score))))).map (fun n => n.id) } := by
        simp only [get_market_sentiment]
        rw [hN]
      rw [hgms]
      have hscne : (n0 :: rest).map (fun n => n.sentiment_score) ≠ [] := by simp
      obtain ⟨hMmem, hMub⟩ := listMaxD_spec hscne
      obtain ⟨hmmem, hmlb⟩ := listMinD_spec hscne
      refine ⟨rfl, rfl, ?_, ?_⟩
      · refine ⟨listMaxD ((n0 :: rest).map (fun n => n.sentiment_score)), rfl, hMmem, hMub, ?_⟩
        obtain ⟨nx, hnx, hfx⟩ := List.mem_map.mp hMmem
        have hsome : ((n0 :: rest).find? (fun n =>
            decide (n.sentiment_score =
              listMaxD ((n0 :: rest).map (fun n => n.sentiment_score))))).isSome = true :=
          List.find?_isSome.mpr ⟨nx, hnx, decide_eq_true hfx⟩
        obtain ⟨nf, hnf⟩ := Option.isSome_iff_exists.mp hsome
        refine ⟨nf, List.mem_of_find?_eq_some hnf, ?_, ?_⟩
        · rw [hnf]
          rfl
        · have hp := List.find?_some hnf
          simp only [decide_eq_true_eq] at hp
          exact hp
      · refine ⟨listMinD ((n0 :: rest).map (fun n => n.sentiment_score)), rfl, hmmem, hmlb, ?_⟩
        obtain ⟨nx, hnx, hfx⟩ := List.mem_map.mp hmmem
        have hsome : ((n0 :: rest).find? (fun n =>
            decide (n.sentiment_score =
              listMinD ((n0 :: rest).map (fun n => n.sentiment_score))))).isSome = true :=
          List.find?_isSome.mpr ⟨nx, hnx, decide_eq_true hfx⟩
        obtain ⟨nf, hnf⟩ := Option.isSome_iff_exists.mp hsome
        refine ⟨nf, List.mem_of_find?_eq_some hnf, ?_, ?_⟩
        · rw [hnf]
          rfl
        · have hp := List.find?_some hnf
          simp only [decide_eq_true_eq] at hp
          exact hp

/-- A persisted row inside the sentiment window, for the C5 witness. -/
def c5_item : NewsItem :=
  { id := 7, title := "t", original_content := "c", source_url := "u",
    received_at := 0, summary := "s", sentiment := "neutral", sentiment_score := 1,
    mentioned_coins := [], is_major := false }

/-- Witness for C5 on a one-item window. -/
theorem c5_market_sentiment_witness :
    (get_market_sentiment [c5_item] 0 defaultSettings).news_count =
      ([c5_item] : List NewsItem).length ∧
    (get_market_sentiment [c5_item] 0 defaultSettings).market_sentiment_normalized =
      round4 ((([c5_item] : List NewsItem).map (fun n => n.sentiment_score)).sum /
        ((([c5_item] : List NewsItem).map (fun n => n.sentiment_score)).length : ℚ)) ∧
    (∃ M : ℚ,
      (get_market_sentiment [c5_item] 0 defaultSettings).max_score = some M ∧
      M ∈ ([c5_item] : List NewsItem).map (fun n => n.sentiment_score) ∧
      (∀ x ∈ ([c5_item] : List NewsItem).map (fun n => n.sentiment_score), x ≤ M) ∧
      (∃ nmax ∈ ([c5_item] : List NewsItem),
        (get_market_sentiment [c5_item] 0 defaultSettings).max_score_news_id = some nmax.id ∧
        nmax.sentiment_score = M)) ∧
    (∃ m : ℚ,
      (get_market_sentiment [c5_item] 0 defaultSettings).min_score = some m ∧
      m ∈ ([c5_item] : List NewsItem).map (fun n => n.sentiment_score) ∧
      (∀ x ∈ ([c5_item] : List NewsItem).map (fun n => n.sentiment_score), m ≤ x) ∧
      (∃ nmin ∈ ([c5_item] : List NewsItem),
        (get_market_sentiment [c5_item] 0 defaultSettings).min_score_news_id = some nmin.id ∧
        nmin.sentiment_score = m)) :=
  (c5_market_sentiment [c5_item] 0 defaultSettings [c5_item] rfl).2
    (List.cons_ne_nil c5_item [])

/-- The score stored by the AI path always lands in [0, 1]: an in-range score
is kept, an out-of-range one is clamped. -/
theorem analyze_normalize_score_bounds (r : RawResponse) :
    0 ≤ (analyzeNormalize r).sentiment_score ∧ (analyzeNormalize r).sentiment_score ≤ 1 := by
  simp only [analyzeNormalize]
  by_cases h : 0 ≤ r.sentiment_score ∧ r.sentiment_score ≤ 1
  · rw [if_pos h]
    exact h
  · rw [if_neg h]
    constructor
    · exact le_max_left 0 _
    · exact max_le (by norm_num) (min_le_left 1 _)

/-- Claim C9: every operation that writes the store preserves the invariant
that all persisted sentiment scores lie in [0, 1]: push_news with the DeepSeek
classifier (whose normalization clamps out-of-range scores) or with AI
disabled (which stores 0.5), and the retention cleanup (which only deletes). -/
theorem c9_sentiment_score_invariant :
    (∀ (st : Settings) (api : String → Except String RawResponse)
       (news_data : NewsItemCreate) (store : List NewsItem) (now : ℤ) (nid : ℕ),
       (∀ n ∈ store, 0 ≤ n.sentiment_score ∧ n.sentiment_score ≤ 1) →
       ∀ n ∈ (push_news st (analyze_news api) news_data store now nid).1,
         0 ≤ n.sentiment_score ∧ n.sentiment_score ≤ 1) ∧
    (∀ (st : Settings) (now : ℤ) (store : List NewsItem),
       (∀ n ∈ store, 0 ≤ n.sentiment_score ∧ n.sentiment_score ≤ 1) →
       ∀ n ∈ cleanup_old_news st now store,
         0 ≤ n.sentiment_score ∧ n.sentiment_score ≤ 1) := by
  constructor
  · intro st api news_data store now nid hstore n hn
    by_cases hE : st.enable_ai_analysis
    · simp only [push_news, hE, if_true, analyze_news] at hn
      cases hapi : api news_data.content with
      | error e =>
          rw [hapi] at hn
          exact hstore n hn
      | ok raw =>
          rw [hapi] at hn
          simp only [List.mem_append, List.mem_singleton] at hn
          rcases hn with hn | hn
          · exact hstore n hn
          · subst hn
            exact analyze_normalize_score_bounds raw
    · simp only [push_news, hE, if_false, Bool.false_eq_true] at hn
      simp only [List.mem_append, List.mem_singleton] at hn
      rcases hn with hn | hn
      · exact hstore n hn
      · subst hn
        constructor
        · show (0 : ℚ) ≤ mkRat 1 2
          decide
        · show (mkRat 1 2 : ℚ) ≤ 1
          decide
  · intro st now store hstore n hn
    exact hstore n (List.mem_of_mem_filter hn)

/-- A raw response with an out-of-range score, for the C9 witness. -/
def c9_raw : RawResponse :=
  { summary := "sum", sentiment := "bullish", sentiment_score := mkRat 7 2,
    mentioned_coins := JValue.jnull }

/-- The item the C9 witness scenario persists: label rewritten to positive
(raw score 3.5 > 0.6), score clamped to 1, coins coerced to []. -/
def c9_item : NewsItem :=
  { id := 1, title := "t", original_content := "c", source_url := "u",
    received_at := 0, summary := "sum", sentiment := "positive",
    sentiment_score := 1, mentioned_coins := [], is_major := true }

/-- Witness for C9: the concrete stored item satisfies the score bound. -/
theorem c9_sentiment_score_invariant_witness :
    c9_item ∈ (push_news defaultSettings (analyze_news (fun _ => Except.ok c9_raw))
      ⟨"t", "c", "u"⟩ [] 0 1).1 ∧
    0 ≤ c9_item.sentiment_score ∧ c9_item.sentiment_score ≤ 1 := by
  have hm : c9_item ∈ (push_news defaultSettings
      (analyze_news (fun _ => Except.ok c9_raw)) ⟨"t", "c", "u"⟩ [] 0 1).1 := by
    have h : (push_news defaultSettings (analyze_news (fun _ => Except.ok c9_raw))
        ⟨"t", "c", "u"⟩ [] 0 1).1 = [c9_item] := rfl
    rw [h]
    exact List.mem_singleton_self c9_item
  exact ⟨hm, c9_sentiment_score_invariant.1 defaultSettings (fun _ => Except.ok c9_raw)
    ⟨"t", "c", "u"⟩ [] 0 1 (fun n hn => absurd hn (List.not_mem_nil n)) c9_item hm⟩
